import Mathlib

/-!
Verification development for the budget-explorer data pipeline (`app.py`).

The pipeline is shallowly embedded as follows.

* Strings are Lean `String`s; a pandas cell value that may be `NaN` is an
  `Option ℚ` (`none` = missing).  Floating-point numbers are idealized as
  exact rationals; the non-finite float outcomes (`NaN`, `+inf`, `-inf`)
  produced by division and multiplication are modelled explicitly by the
  `FVal` type, with the IEEE special-value rules of numpy.
* `load_data`: ministry-name canonicalization is `canonicalize`
  (exact alias-table substitution via `pandas.Series.replace`, then
  `str.replace("MINISTRY OF ", "", regex=False)`, which removes all
  non-overlapping occurrences left to right, modelled by `replaceAll`);
  numeric cleaning is `coerceNumeric` (`str.replace(',', '')` then
  `pd.to_numeric(errors="coerce")`, modelled by a decimal parser that
  yields `none` on failure); the Total fallback is the `total` field of
  `normalizeRow` (`fillna`); period normalization is `normYear` (`str[:9]`).
* The focus filter is `loadRows`; per-period totals (`groupby("Year")`
  `.sum()`, which skips missing values) are `periodTotal`; the
  `Share (%)` column is `shareVal`.
* The Deep Dive CAGR block (`first = data.iloc[0]["Total"]`,
  `last = data.iloc[-1]["Total"]`, `years = len(data) - 1`,
  `cagr = ((last/first) ** (1/years) - 1) * 100`) is `cagrBlock`, acting
  on the list of a ministry's Total values in row order.  Python raises
  `ZeroDivisionError` on `1/years` when `years = 0` and `IndexError` on
  `iloc[0]` when the frame is empty; otherwise numpy float semantics
  apply (division by zero gives `±inf`, `NaN` propagates, a negative
  base with a non-integer exponent gives `NaN`, and `x ** 1.0 = x`).
  The finite-value branch uses the real power function.
* The What If? reallocation check
  (`abs(total_allocated - total_2024) < 5`, with the remaining amount
  displayed as `total_2024 - total_allocated`) is `whatIfCheck`.
-/

/-- Alias table of `load_data`: the exact-match `replace` dictionary
applied to the `Ministry Name` column. -/
def aliasTable : List (String × String) :=
  [("MINISTRY OF AGRICULTURE", "Agriculture & Farmers\x27 Welfare"),
   ("MINISTRY OF AGRICULTURE AND FARMERS WELFARE", "Agriculture & Farmers\x27 Welfare"),
   ("MINISTRY OF AGRICULTURE AND FARMERS\x27 WELFARE", "Agriculture & Farmers\x27 Welfare"),
   ("MINISTRY OF DEFENCE", "Defence"),
   ("MINISTRY OF FINANCE", "Finance"),
   ("MINISTRY OF HOME AFFAIRS", "Home Affairs"),
   ("MINISTRY OF HEALTH AND FAMILY WELFARE", "Health & Family Welfare")]

/-- Exact-match substitution (`Series.replace` with a dictionary): a cell
equal to a key is replaced by the value, any other cell is unchanged. -/
def aliasReplace (s : String) : String :=
  match aliasTable.find? (fun p => p.1 == s) with
  | some p => p.2
  | none => s

/-- The literal stripped by `str.replace("MINISTRY OF ", "", regex=False)`. -/
def msPat : List Char := "MINISTRY OF ".data

/-- One pass of Python `str.replace(old, new="")` for a non-empty pattern,
scanning left to right and removing each non-overlapping occurrence.  The
fuel argument only bounds the recursion; since every step consumes at
least one character (the pattern is non-empty at every use site), fuel
equal to the string length is always sufficient. -/
def replaceAllFuel (pat : List Char) : Nat → List Char → List Char
  | _, [] => []
  | 0, s => s
  | fuel + 1, c :: rest =>
    if (c :: rest).take pat.length = pat then
      replaceAllFuel pat fuel ((c :: rest).drop pat.length)
    else
      c :: replaceAllFuel pat fuel rest

/-- Python `s.replace(pat, "")` for a non-empty pattern. -/
def replaceAll (pat s : List Char) : List Char :=
  replaceAllFuel pat s.length s

/-- Whether `pat` occurs as a contiguous sublist of `s` (used to state
properties of `replaceAll`). -/
def containsSub (pat : List Char) : List Char → Bool
  | [] => decide (pat = [])
  | c :: rest => decide ((c :: rest).take pat.length = pat) || containsSub pat rest

/-- The ministry-name canonicalizer of `load_data`:
`.replace({alias table}).str.replace("MINISTRY OF ", "", regex=False)`. -/
def canonicalize (s : String) : String :=
  String.mk (replaceAll msPat (aliasReplace s).data)

/-- Numeric value of a digit string (most significant first). -/
def digitsToNat (ds : List Char) : Nat :=
  ds.foldl (fun acc c => 10 * acc + (c.toNat - 48)) 0

/-- Splits a leading run of decimal digits from the rest. -/
def takeDigits : List Char → List Char × List Char
  | [] => ([], [])
  | c :: rest =>
    if c.isDigit then
      let p := takeDigits rest
      (c :: p.1, p.2)
    else ([], c :: rest)

/-- Decimal number parser modelling `pd.to_numeric(..., errors="coerce")`
on the numeric formats occurring in the cleaned cells: an optional sign,
an integer part and an optional fractional part.  Any other text fails to
parse, which `to_numeric` turns into a missing value. -/
def parseDecimal (s : List Char) : Option ℚ :=
  let sp : Int × List Char :=
    match s with
    | '-' :: rest => (-1, rest)
    | '+' :: rest => (1, rest)
    | _ => (1, s)
  let ipr := takeDigits sp.2
  match ipr.2 with
  | [] =>
    if ipr.1 = [] then none
    else some ((sp.1 * (digitsToNat ipr.1 : Int) : Int) : ℚ)
  | '.' :: s3 =>
    let fpr := takeDigits s3
    if fpr.2 = [] ∧ ¬(ipr.1 = [] ∧ fpr.1 = []) then
      some ((sp.1 : ℚ) * ((digitsToNat ipr.1 : ℚ) +
        (digitsToNat fpr.1 : ℚ) / (10 : ℚ) ^ fpr.1.length))
    else none
  | _ => none

/-- Numeric cleaning of `load_data`:
`pd.to_numeric(df[col].astype(str).str.replace(',', ''), errors='coerce')` —
all commas are removed, then the rest is parsed, failure giving `none`. -/
def coerceNumeric (s : String) : Option ℚ :=
  parseDecimal (s.data.filter (fun c => !(c == ',')))

/-- Period normalization of `load_data`: `df["Year"].str[:9]`, the leading
slice of at most nine characters. -/
def normYear (s : String) : String :=
  String.mk (s.data.take 9)

/-- One raw CSV row: the free-text ministry name, the raw period label and
the seven numeric-as-text columns. -/
structure RawRow where
  ministryName : String
  year : String
  revenuePlan : String
  capitalPlan : String
  totalPlan : String
  revenueNonPlan : String
  capitalNonPlan : String
  totalNonPlan : String
  totalCombined : String
deriving DecidableEq

/-- One normalized budget record produced by `load_data`. -/
structure BudgetRecord where
  ministry : String
  year : String
  revenuePlan : Option ℚ
  capitalPlan : Option ℚ
  totalPlan : Option ℚ
  revenueNonPlan : Option ℚ
  capitalNonPlan : Option ℚ
  totalNonPlan : Option ℚ
  totalCombined : Option ℚ
  total : Option ℚ
deriving DecidableEq

/-- Row normalization of `load_data`: canonicalize the ministry name,
coerce the numeric cells, derive
`df["Total"] = df["Total Plan & Non-Plan"].fillna(df["Total (Plan)"])` and
truncate the period label. -/
def normalizeRow (r : RawRow) : BudgetRecord :=
  { ministry := canonicalize r.ministryName
    year := normYear r.year
    revenuePlan := coerceNumeric r.revenuePlan
    capitalPlan := coerceNumeric r.capitalPlan
    totalPlan := coerceNumeric r.totalPlan
    revenueNonPlan := coerceNumeric r.revenueNonPlan
    capitalNonPlan := coerceNumeric r.capitalNonPlan
    totalNonPlan := coerceNumeric r.totalNonPlan
    totalCombined := coerceNumeric r.totalCombined
    total :=
      match coerceNumeric r.totalCombined with
      | some q => some q
      | none => coerceNumeric r.totalPlan }

/-- The fixed focus set: `focus_ministries` in the source. -/
def focusMinistries : List String :=
  ["Defence", "Finance", "Home Affairs",
   "Agriculture & Farmers\x27 Welfare", "Health & Family Welfare"]

/-- The loader: apply `normalizeRow` to every raw row once, then keep the focus rows
(`df[df["Ministry"].isin(focus_ministries)]`). -/
def loadRows (rows : List RawRow) : List BudgetRecord :=
  (rows.map normalizeRow).filter (fun r => focusMinistries.contains r.ministry)

/-- The records of one period (the rows of one `groupby("Year")` group). -/
def periodRecs (recs : List BudgetRecord) (y : String) : List BudgetRecord :=
  recs.filter (fun r => r.year == y)

/-- Per-period total: `df.groupby("Year")["Total"].sum()`.  The pandas sum
skips missing values, so records with a missing Total are excluded. -/
def periodTotal (recs : List BudgetRecord) (y : String) : ℚ :=
  ((periodRecs recs y).filterMap (fun r => r.total)).sum

/-- Idealized IEEE float value: finite rational, `NaN`, or a signed
infinity.  Parsed cells are finite or `NaN`; the non-finite values arise
from the arithmetic below, following numpy float64 semantics. -/
inductive FVal where
  | nan : FVal
  | pinf : FVal
  | ninf : FVal
  | fin : ℚ → FVal
deriving DecidableEq

/-- A possibly-missing cell viewed as a float (`NaN` for missing). -/
def optToF : Option ℚ → FVal
  | none => FVal.nan
  | some q => FVal.fin q

/-- Float division with numpy float64 special values (the model has a
single unsigned zero, so `a / 0` takes the sign of `a`). -/
def fdiv : FVal → FVal → FVal
  | FVal.nan, _ => FVal.nan
  | _, FVal.nan => FVal.nan
  | FVal.fin a, FVal.fin b =>
    if b = 0 then
      (if a = 0 then FVal.nan else if 0 < a then FVal.pinf else FVal.ninf)
    else FVal.fin (a / b)
  | FVal.fin _, FVal.pinf => FVal.fin 0
  | FVal.fin _, FVal.ninf => FVal.fin 0
  | FVal.pinf, FVal.fin b => if 0 ≤ b then FVal.pinf else FVal.ninf
  | FVal.ninf, FVal.fin b => if 0 ≤ b then FVal.ninf else FVal.pinf
  | FVal.pinf, FVal.pinf => FVal.nan
  | FVal.pinf, FVal.ninf => FVal.nan
  | FVal.ninf, FVal.pinf => FVal.nan
  | FVal.ninf, FVal.ninf => FVal.nan

/-- Float multiplication with numpy float64 special values. -/
def fmul : FVal → FVal → FVal
  | FVal.nan, _ => FVal.nan
  | _, FVal.nan => FVal.nan
  | FVal.fin a, FVal.fin b => FVal.fin (a * b)
  | FVal.pinf, FVal.fin b =>
    if b = 0 then FVal.nan else if 0 < b then FVal.pinf else FVal.ninf
  | FVal.ninf, FVal.fin b =>
    if b = 0 then FVal.nan else if 0 < b then FVal.ninf else FVal.pinf
  | FVal.fin a, FVal.pinf =>
    if a = 0 then FVal.nan else if 0 < a then FVal.pinf else FVal.ninf
  | FVal.fin a, FVal.ninf =>
    if a = 0 then FVal.nan else if 0 < a then FVal.ninf else FVal.pinf
  | FVal.pinf, FVal.pinf => FVal.pinf
  | FVal.pinf, FVal.ninf => FVal.ninf
  | FVal.ninf, FVal.pinf => FVal.ninf
  | FVal.ninf, FVal.ninf => FVal.pinf

/-- Float addition with numpy float64 special values. -/
def fadd : FVal → FVal → FVal
  | FVal.nan, _ => FVal.nan
  | _, FVal.nan => FVal.nan
  | FVal.fin a, FVal.fin b => FVal.fin (a + b)
  | FVal.pinf, FVal.fin _ => FVal.pinf
  | FVal.ninf, FVal.fin _ => FVal.ninf
  | FVal.fin _, FVal.pinf => FVal.pinf
  | FVal.fin _, FVal.ninf => FVal.ninf
  | FVal.pinf, FVal.pinf => FVal.pinf
  | FVal.ninf, FVal.ninf => FVal.ninf
  | FVal.pinf, FVal.ninf => FVal.nan
  | FVal.ninf, FVal.pinf => FVal.nan

/-- Float sum of a list, left to right from `0` (Python `sum`). -/
def fsum (l : List FVal) : FVal :=
  l.foldl fadd (FVal.fin 0)

/-- The `Share (%)` column:
`df["Share (%)"] = (df["Total"] / df["Total_total"]) * 100`, where the
merge gives each record the total of its own period. -/
def shareVal (recs : List BudgetRecord) (r : BudgetRecord) : FVal :=
  fmul (fdiv (optToF r.total) (FVal.fin (periodTotal recs r.year))) (FVal.fin 100)

/-- The What If? reallocation check: the balance flag
`abs(total_allocated - total_2024) < 5` together with the reported
remainder `total_2024 - total_allocated`. -/
def whatIfCheck (total : ℚ) (allocs : List ℚ) : Bool × ℚ :=
  (decide (|allocs.sum - total| < 5), total - allocs.sum)

/-- Exceptions the Deep Dive CAGR block can raise. -/
inductive PyError where
  | zeroDivisionError : PyError
  | indexError : PyError
deriving DecidableEq

/-- Outcome of the CAGR block: a raised exception, a non-finite float, or
a finite value. -/
inductive CagrResult where
  | err : PyError → CagrResult
  | nanV : CagrResult
  | pinfV : CagrResult
  | ninfV : CagrResult
  | val : ℝ → CagrResult

/-- Whether the CAGR block raised an exception. -/
def CagrResult.isError : CagrResult → Bool
  | CagrResult.err _ => true
  | _ => false

/-- Whether the CAGR block produced a finite numeric value. -/
def CagrResult.isFin : CagrResult → Bool
  | CagrResult.val _ => true
  | _ => false

/-- The Deep Dive CAGR block, on the list of a ministry's Total values in
row order: `first = data.iloc[0]["Total"]`, `last = data.iloc[-1]["Total"]`,
`years = len(data) - 1`, `cagr = ((last / first) ** (1 / years) - 1) * 100`.
An empty frame raises `IndexError` at `iloc[0]`; a single row raises
`ZeroDivisionError` at `1 / years`.  Otherwise numpy float64 semantics:
a missing endpoint propagates `NaN`; `last / 0` is `±inf` and
`(±inf) ** e - 1` times `100` stays `±inf` (`(-inf) ** 1.0 = -inf`, while
`(-inf) ** e = +inf` for the non-integer exponents `1 / years` with
`years ≥ 2`); a negative ratio with a non-integer exponent gives `NaN`;
finite nonnegative ratios (and any finite ratio when `years = 1`) follow
the real power function. -/
noncomputable def cagrBlock (totals : List (Option ℚ)) : CagrResult :=
  match totals with
  | [] => CagrResult.err PyError.indexError
  | [_] => CagrResult.err PyError.zeroDivisionError
  | t0 :: t1 :: rest =>
    match t0, (t1 :: rest).getLastD none with
    | none, _ => CagrResult.nanV
    | some _, none => CagrResult.nanV
    | some f, some l =>
      if f = 0 then
        if l = 0 then CagrResult.nanV
        else if 0 < l then CagrResult.pinfV
        else if rest.length + 1 = 1 then CagrResult.ninfV else CagrResult.pinfV
      else if l / f < 0 ∧ rest.length + 1 ≠ 1 then CagrResult.nanV
      else
        CagrResult.val
          ((((l / f : ℚ) : ℝ) ^ ((1 : ℝ) / ((rest.length + 1 : ℕ) : ℝ)) - 1) * 100)

/-- A raw row whose combined total fails to parse while the plan total is
`500`. -/
def exRowPlanOnly : RawRow :=
  ⟨"MINISTRY OF DEFENCE", "2024-2025 (BE)", "1", "2", "500", "3", "4", "5", "N/A"⟩

/-- A raw row with combined total `500` and plan total `300`. -/
def exRowBoth : RawRow :=
  ⟨"MINISTRY OF DEFENCE", "2024-2025 (BE)", "1", "2", "300", "3", "4", "5", "500"⟩

/-- Two focus rows of one period, the second with a missing Total (both
its combined and plan totals fail to parse). -/
def c3Rows : List RawRow :=
  [⟨"MINISTRY OF DEFENCE", "2014-2015", "0", "0", "500", "0", "0", "0", "N/A"⟩,
   ⟨"MINISTRY OF FINANCE", "2014-2015", "0", "0", "N/A", "0", "0", "0", "N/A"⟩]

/-- The loaded form of the first row of `c3Rows`. -/
def c3Rec1 : BudgetRecord :=
  ⟨"Defence", "2014-2015", some 0, some 0, some 500, some 0, some 0, some 0, none, some 500⟩

/-- The loaded form of the second row of `c3Rows`: its Total is missing. -/
def c3Rec2 : BudgetRecord :=
  ⟨"Finance", "2014-2015", some 0, some 0, none, some 0, some 0, some 0, none, none⟩

/-- Two focus rows of one period whose Totals are both present
(`300` and `200`). -/
def c3GoodRows : List RawRow :=
  [⟨"MINISTRY OF DEFENCE", "2014-2015", "0", "0", "300", "0", "0", "0", "N/A"⟩,
   ⟨"MINISTRY OF FINANCE", "2014-2015", "0", "0", "200", "0", "0", "0", "N/A"⟩]

/-- A record whose period total is `0` (its own Total is `0`). -/
def c7Rec : BudgetRecord :=
  ⟨"Defence", "2014-2015", none, none, none, none, none, none, none, some 0⟩

/-- A ministry's Total column over eleven periods: first Total `100`,
last Total `941.48`, nine arbitrary values in between. -/
def c5Totals : List (Option ℚ) :=
  [some 100, some 120, some 150, some 200, some 260, some 330,
   some 420, some 530, some 660, some 820, some (23537 / 25)]

/-- Unfolding lemma for one scanning step of `replaceAllFuel`. -/
theorem replaceAllFuel_step (pat : List Char) (fuel : Nat) (c : Char) (rest : List Char) :
    replaceAllFuel pat (fuel + 1) (c :: rest) =
      if (c :: rest).take pat.length = pat then
        replaceAllFuel pat fuel ((c :: rest).drop pat.length)
      else c :: replaceAllFuel pat fuel rest := rfl

/-- For a non-empty pattern, any fuel at least the string length gives the
same result as fuel equal to the string length. -/
theorem replaceAllFuel_ge (pat : List Char) (hpat : pat ≠ []) :
    ∀ (fuel : Nat) (s : List Char), s.length ≤ fuel →
      replaceAllFuel pat fuel s = replaceAll pat s := by
  intro fuel
  induction fuel using Nat.strong_induction_on with
  | _ fuel ih =>
    intro s hs
    rcases s with _ | ⟨c, rest⟩
    · cases fuel <;> rfl
    · rcases fuel with _ | fuel
      · simp at hs
      · rw [replaceAllFuel_step]
        show _ = replaceAllFuel pat (c :: rest).length (c :: rest)
        rw [List.length_cons, replaceAllFuel_step]
        have hfl : rest.length ≤ fuel := by
          simpa using hs
        by_cases htake : (c :: rest).take pat.length = pat
        · rw [if_pos htake, if_pos htake]
          have hplen : 0 < pat.length := List.length_pos.mpr hpat
          have hdl : ((c :: rest).drop pat.length).length ≤ rest.length := by
            rw [List.length_drop, List.length_cons]
            omega
          rw [ih fuel (by omega) _ (le_trans hdl hfl),
            ih rest.length (by omega) _ hdl]
        · rw [if_neg htake, if_neg htake]
          rw [ih fuel (by omega) rest hfl]
          rfl

/-- A string with no occurrence of the pattern is left unchanged by
`replaceAllFuel`, whatever the fuel. -/
theorem replaceAllFuel_of_not_contains (pat : List Char) :
    ∀ (fuel : Nat) (s : List Char), containsSub pat s = false →
      replaceAllFuel pat fuel s = s := by
  intro fuel
  induction fuel with
  | zero => intro s _; cases s <;> rfl
  | succ fuel ih =>
    intro s h
    rcases s with _ | ⟨c, rest⟩
    · rfl
    · rw [replaceAllFuel_step]
      simp only [containsSub, Bool.or_eq_false_iff, decide_eq_false_iff_not] at h
      rw [if_neg h.1, ih rest h.2]

/-- A string with no occurrence of the pattern is left unchanged by
`replaceAll`. -/
theorem replaceAll_of_not_contains (pat : List Char) (s : List Char)
    (h : containsSub pat s = false) : replaceAll pat s = s :=
  replaceAllFuel_of_not_contains pat s.length s h

/-- C8 (counterexample): re-canonicalizing a canonical name is not always
the identity.  Stripping `"MINISTRY OF "` from
`"MINISTRY MINISTRY OF OF AGRICULTURE"` splices the two remaining halves
into the fresh occurrence `"MINISTRY OF AGRICULTURE"`, an alias-table key,
so a second canonicalization pass maps it to the alias value. -/
theorem c8_counterexample :
    canonicalize (canonicalize "MINISTRY MINISTRY OF OF AGRICULTURE") ≠
      canonicalize "MINISTRY MINISTRY OF OF AGRICULTURE" := by decide

/-- C8 (amended): for every raw label whose canonical form contains no
occurrence of the substring `"MINISTRY OF "`, re-canonicalizing the
canonical name returns it unchanged. -/
theorem c8_canonicalize_idempotent_amended (s : String)
    (h : containsSub msPat (canonicalize s).data = false) :
    canonicalize (canonicalize s) = canonicalize s := by
  have halias : aliasReplace (canonicalize s) = canonicalize s := by
    have hnone : aliasTable.find? (fun p => p.1 == canonicalize s) = none := by
      rw [List.find?_eq_none]
      intro p hp
      simp only [aliasTable, List.mem_cons, List.not_mem_nil, or_false] at hp
      rcases hp with h1 | h1 | h1 | h1 | h1 | h1 | h1 <;>
        (subst h1
         simp only [beq_iff_eq]
         intro he
         rw [← he] at h
         revert h
         decide)
    rw [aliasReplace, hnone]
  have hstrip : replaceAll msPat (canonicalize s).data = (canonicalize s).data :=
    replaceAll_of_not_contains msPat (canonicalize s).data h
  show String.mk (replaceAll msPat (aliasReplace (canonicalize s)).data) = canonicalize s
  rw [halias, hstrip]

/-- C8 (witness): the amended idempotence at the raw label
`"MINISTRY OF DEFENCE"`, whose canonical form is `"Defence"`. -/
theorem c8_witness :
    containsSub msPat (canonicalize "MINISTRY OF DEFENCE").data = false ∧
    canonicalize (canonicalize "MINISTRY OF DEFENCE") =
      canonicalize "MINISTRY OF DEFENCE" :=
  ⟨by decide, c8_canonicalize_idempotent_amended "MINISTRY OF DEFENCE" (by decide)⟩

/-- C10 (counterexample): the stripped output can still contain
`"MINISTRY OF "`.  The label `"MINISTRY MINISTRY OF OF DEFENCE"` is not an
alias-table key, yet its canonical form contains the substring, because
removing the single inner occurrence splices a new one together. -/
theorem c10_counterexample :
    aliasReplace "MINISTRY MINISTRY OF OF DEFENCE" =
      "MINISTRY MINISTRY OF OF DEFENCE" ∧
    containsSub msPat (canonicalize "MINISTRY MINISTRY OF OF DEFENCE").data = true :=
  ⟨by decide, by decide⟩

/-- C10 (amended): the stripping step is not limited to a leading prefix —
for any label made of one non-`'M'` character followed by
`"MINISTRY OF "` and a remainder, the mid-string occurrence is removed and
stripping continues on the remainder.  (The left-to-right removal can,
however, splice a new occurrence together, so the output is not guaranteed
to be free of the substring.) -/
theorem c10_strip_anywhere_amended (c : Char) (v : List Char) (hc : c ≠ 'M') :
    replaceAll msPat (c :: (msPat ++ v)) = c :: replaceAll msPat v := by
  have h12 : msPat.length = 12 := by decide
  have hlen : (c :: (msPat ++ v)).length = (12 + v.length) + 1 := by
    rw [List.length_cons, List.length_append, h12]
  show replaceAllFuel msPat (c :: (msPat ++ v)).length (c :: (msPat ++ v)) =
    c :: replaceAll msPat v
  rw [hlen, replaceAllFuel_step]
  have hno : ¬((c :: (msPat ++ v)).take msPat.length = msPat) := by
    rw [h12]
    intro he
    rw [List.take_succ_cons] at he
    have hm : msPat = 'M' :: "INISTRY OF ".data := by decide
    rw [hm] at he
    exact hc (List.head_eq_of_cons_eq he)
  rw [if_neg hno]
  have h2 : 12 + v.length = (11 + v.length) + 1 := by omega
  have hconsform : msPat ++ v = 'M' :: ("INISTRY OF ".data ++ v) := rfl
  rw [h2, hconsform, replaceAllFuel_step]
  have hyes : ('M' :: ("INISTRY OF ".data ++ v)).take msPat.length = msPat := by
    rw [← hconsform]
    exact List.take_left msPat v
  have hdrop : ('M' :: ("INISTRY OF ".data ++ v)).drop msPat.length = v := by
    rw [← hconsform]
    exact List.drop_left msPat v
  rw [if_pos hyes, hdrop,
    replaceAllFuel_ge msPat (by decide) (11 + v.length) v (by omega)]

/-- C10 (witness): the amended mid-string stripping at the concrete label
`'X' :: "MINISTRY OF " ++ "DEFENCE"`. -/
theorem c10_witness :
    ('X' ≠ 'M') ∧
    replaceAll msPat ('X' :: (msPat ++ "DEFENCE".data)) =
      'X' :: replaceAll msPat "DEFENCE".data :=
  ⟨by decide, c10_strip_anywhere_amended 'X' "DEFENCE".data (by decide)⟩

/-- C1: the reallocation check is balanced exactly when the absolute gap
between the period total and the allocated sum is strictly below `5`, and
it reports the untouched difference `total - allocatedSum`; with a total
of `4800`, allocations summing to `4797` balance while allocations
summing to `4790` do not, with reported difference `10`. -/
theorem c1_reallocation_check :
    (∀ (recs : List BudgetRecord) (p : String) (allocs : List ℚ),
      ((whatIfCheck (periodTotal recs p / 10000000) allocs).1 = true ↔
        |periodTotal recs p / 10000000 - allocs.sum| < 5) ∧
      (whatIfCheck (periodTotal recs p / 10000000) allocs).2 =
        periodTotal recs p / 10000000 - allocs.sum) ∧
    (whatIfCheck 4800 [1200, 1100, 1000, 900, 597]).1 = true ∧
    (whatIfCheck 4800 [1200, 1100, 1000, 900, 590]).1 = false ∧
    (whatIfCheck 4800 [1200, 1100, 1000, 900, 590]).2 = 10 := by
  refine ⟨fun recs p allocs => ⟨?_, rfl⟩, ?_, ?_, ?_⟩
  · simp only [whatIfCheck, decide_eq_true_eq]
    rw [abs_sub_comm]
  · simp only [whatIfCheck, decide_eq_true_eq]
    norm_num [List.sum_cons, List.sum_nil]
  · simp only [whatIfCheck, decide_eq_false_iff_not]
    norm_num [List.sum_cons, List.sum_nil]
  · simp only [whatIfCheck]
    norm_num [List.sum_cons, List.sum_nil]

/-- C9: period normalization takes exactly the leading nine-character
slice of the raw period text; in particular `"2024-2025 (BE)"` becomes
`"2024-2025"`. -/
theorem c9_period_normalization :
    (∀ s : String, (normYear s).data = s.data.take 9) ∧
    normYear "2024-2025 (BE)" = "2024-2025" :=
  ⟨fun _ => rfl, by decide⟩

/-- C4: Total is the combined total when that parses, else the plan
total; a record whose Total is missing contributes nothing to a period
total; concretely, combined missing with plan `500` gives Total `500`,
and combined `500` with plan `300` gives Total `500`. -/
theorem c4_total_fallback :
    (∀ r : RawRow, (coerceNumeric r.totalCombined).isSome = true →
      (normalizeRow r).total = coerceNumeric r.totalCombined) ∧
    (∀ r : RawRow, coerceNumeric r.totalCombined = none →
      (normalizeRow r).total = coerceNumeric r.totalPlan) ∧
    (∀ (recs : List BudgetRecord) (r : BudgetRecord) (y : String),
      r.total = none → periodTotal (r :: recs) y = periodTotal recs y) ∧
    (normalizeRow exRowPlanOnly).total = some 500 ∧
    (normalizeRow exRowBoth).total = some 500 := by
  refine ⟨?_, ?_, ?_, by decide, by decide⟩
  · intro r h
    obtain ⟨q, hq⟩ := Option.isSome_iff_exists.mp h
    simp [normalizeRow, hq]
  · intro r h
    simp [normalizeRow, h]
  · intro recs r y htot
    simp only [periodTotal, periodRecs, List.filter_cons]
    split
    · simp [List.filterMap_cons, htot]
    · rfl

/-- C4 (witness): the fallback rules at the concrete rows `exRowBoth` and
`exRowPlanOnly`, and the no-contribution rule at a record with a missing
Total. -/
theorem c4_witness :
    ((coerceNumeric exRowBoth.totalCombined).isSome = true ∧
      (normalizeRow exRowBoth).total = coerceNumeric exRowBoth.totalCombined) ∧
    (coerceNumeric exRowPlanOnly.totalCombined = none ∧
      (normalizeRow exRowPlanOnly).total = coerceNumeric exRowPlanOnly.totalPlan) ∧
    (c3Rec2.total = none ∧
      periodTotal [c3Rec2] "2014-2015" = periodTotal [] "2014-2015") :=
  ⟨⟨by decide, c4_total_fallback.1 exRowBoth (by decide)⟩,
   ⟨by decide, c4_total_fallback.2.1 exRowPlanOnly (by decide)⟩,
   ⟨by decide, c4_total_fallback.2.2.1 [] c3Rec2 "2014-2015" (by decide)⟩⟩

/-- C6: numeric coercion strips the grouping commas and parses the rest,
with parse failure becoming a missing value: `"12,34,567"` parses to
`1234567`, `"N/A"` becomes missing, and a row with an unparseable
combined total is still normalized (the loader does not abort), its
Total falling back to the plan total. -/
theorem c6_numeric_coercion :
    coerceNumeric "12,34,567" = some 1234567 ∧
    coerceNumeric "N/A" = none ∧
    (∀ r : RawRow, r.totalCombined = "N/A" →
      (normalizeRow r).totalCombined = none ∧
      (normalizeRow r).total = coerceNumeric r.totalPlan) := by
  refine ⟨by decide, by decide, ?_⟩
  intro r h
  constructor
  · simp [normalizeRow, h, show coerceNumeric "N/A" = none from by decide]
  · simp [normalizeRow, h, show coerceNumeric "N/A" = none from by decide]

/-- C6 (witness): the tolerated-failure rule at the concrete row
`exRowPlanOnly`. -/
theorem c6_witness :
    exRowPlanOnly.totalCombined = "N/A" ∧
    ((normalizeRow exRowPlanOnly).totalCombined = none ∧
      (normalizeRow exRowPlanOnly).total = coerceNumeric exRowPlanOnly.totalPlan) :=
  ⟨by decide, c6_numeric_coercion.2.2 exRowPlanOnly (by decide)⟩

/-- Adding float `NaN` on the right absorbs any accumulated value. -/
theorem fadd_nan (x : FVal) : fadd x FVal.nan = FVal.nan := by
  cases x <;> rfl

/-- C7: when a record's period total is zero, its share is a non-finite
float (`NaN` or a signed infinity), never a finite number, and the
computation does not raise (`shareVal` is a total function). -/
theorem c7_share_guard (recs : List BudgetRecord) (r : BudgetRecord)
    (h : periodTotal recs r.year = 0) (q : ℚ) : shareVal recs r ≠ FVal.fin q := by
  simp only [shareVal, h]
  rcases htot : r.total with _ | a
  · intro hcon
    rw [show fmul (fdiv (optToF none) (FVal.fin 0)) (FVal.fin 100) = FVal.nan from rfl] at hcon
    exact FVal.noConfusion hcon
  · simp only [optToF]
    rcases lt_trichotomy a 0 with ha | ha | ha
    · have h1 : fdiv (FVal.fin a) (FVal.fin 0) = FVal.ninf := by
        simp only [fdiv]
        rw [if_neg ha.ne, if_neg (not_lt.mpr ha.le)]
        simp
      have h2 : fmul FVal.ninf (FVal.fin 100) = FVal.ninf := by
        simp only [fmul]
        norm_num
      rw [h1, h2]
      intro hcon
      exact FVal.noConfusion hcon
    · subst ha
      have h1 : fdiv (FVal.fin 0) (FVal.fin 0) = FVal.nan := by
        simp [fdiv]
      rw [h1]
      intro hcon
      exact FVal.noConfusion hcon
    · have h1 : fdiv (FVal.fin a) (FVal.fin 0) = FVal.pinf := by
        simp only [fdiv]
        rw [if_neg ha.ne.symm, if_pos ha]
        simp
      have h2 : fmul FVal.pinf (FVal.fin 100) = FVal.pinf := by
        simp only [fmul]
        norm_num
      rw [h1, h2]
      intro hcon
      exact FVal.noConfusion hcon

/-- C7 (witness): the share guard at a one-record dataset whose period
total is zero. -/
theorem c7_witness :
    periodTotal [c7Rec] c7Rec.year = 0 ∧ shareVal [c7Rec] c7Rec ≠ FVal.fin 7 := by
  have h : periodTotal [c7Rec] c7Rec.year = 0 := by
    have h1 : periodRecs [c7Rec] c7Rec.year = [c7Rec] := by decide
    have h2 : [c7Rec].filterMap (fun r => r.total) = [(0 : ℚ)] := by decide
    simp only [periodTotal, h1, h2, List.sum_cons, List.sum_nil, add_zero]
  exact ⟨h, c7_share_guard [c7Rec] c7Rec h 7⟩

/-- Summing the share values of records with present Totals, all divided
by the same non-zero period total, folds to a single finite rational. -/
theorem foldl_shares (T : ℚ) (hT : T ≠ 0) (l : List BudgetRecord) :
    ∀ a : ℚ, (∀ r ∈ l, (r.total).isSome = true) →
      (l.map (fun r => fmul (fdiv (optToF r.total) (FVal.fin T)) (FVal.fin 100))).foldl
          fadd (FVal.fin a) =
        FVal.fin (a + (l.filterMap (fun r => r.total)).sum * (100 / T)) := by
  induction l with
  | nil =>
    intro a _
    simp
  | cons r l ih =>
    intro a h
    obtain ⟨q, hq⟩ := Option.isSome_iff_exists.mp (h r (List.mem_cons_self r l))
    have hshare : fmul (fdiv (optToF r.total) (FVal.fin T)) (FVal.fin 100) =
        FVal.fin (q / T * 100) := by
      rw [hq]
      simp [optToF, fdiv, fmul, hT]
    rw [List.map_cons, List.foldl_cons, hshare,
      show fadd (FVal.fin a) (FVal.fin (q / T * 100)) = FVal.fin (a + q / T * 100) from rfl,
      ih (a + q / T * 100) (fun r' hr' => h r' (List.mem_cons_of_mem r hr'))]
    simp only [List.filterMap_cons, hq, List.sum_cons]
    congr 1
    ring

/-- C3 (amended): for every period of the focus-filtered dataset in which
every record's Total is present and whose period total is non-zero, the
shares sum to exactly `100` (so certainly within `1e-6`). -/
theorem c3_share_closure_amended (rows : List RawRow) (y : String)
    (hall : ∀ r ∈ periodRecs (loadRows rows) y, (r.total).isSome = true)
    (hT : periodTotal (loadRows rows) y ≠ 0) :
    fsum ((periodRecs (loadRows rows) y).map (fun r => shareVal (loadRows rows) r)) =
      FVal.fin 100 := by
  have hmap : (periodRecs (loadRows rows) y).map (fun r => shareVal (loadRows rows) r) =
      (periodRecs (loadRows rows) y).map
        (fun r => fmul (fdiv (optToF r.total)
          (FVal.fin (periodTotal (loadRows rows) y))) (FVal.fin 100)) := by
    apply List.map_congr_left
    intro r hr
    have hy : r.year = y := by
      have hm := List.mem_filter.mp hr
      exact eq_of_beq hm.2
    simp only [shareVal, hy]
  rw [fsum, hmap, foldl_shares (periodTotal (loadRows rows) y) hT _ 0 hall]
  rw [show ((periodRecs (loadRows rows) y).filterMap (fun r => r.total)).sum =
    periodTotal (loadRows rows) y from rfl]
  rw [zero_add, mul_comm, div_mul_cancel₀ _ hT]

/-- C3 (counterexample): with a focus record whose Total is missing, the
period is present in the focus-filtered dataset but the float sum of its
shares is `NaN`, which is not within `1e-6` of `100`. -/
theorem c3_counterexample :
    periodRecs (loadRows c3Rows) "2014-2015" ≠ [] ∧
    ¬ ∃ q : ℚ, fsum ((periodRecs (loadRows c3Rows) "2014-2015").map
        (fun r => shareVal (loadRows c3Rows) r)) = FVal.fin q ∧
      |q - 100| ≤ 1 / 1000000 := by
  have h1 : periodRecs (loadRows c3Rows) "2014-2015" = [c3Rec1, c3Rec2] := by decide
  constructor
  · rw [h1]
    intro hcon
    exact List.noConfusion hcon
  · rintro ⟨q, hq, -⟩
    rw [h1] at hq
    have h2 : shareVal (loadRows c3Rows) c3Rec2 = FVal.nan := rfl
    simp only [List.map_cons, List.map_nil, fsum, List.foldl_cons, List.foldl_nil, h2,
      fadd_nan] at hq
    exact FVal.noConfusion hq

/-- C3 (witness): the amended closure at a two-record period with Totals
`300` and `200`: the period total is `500` and the shares sum to `100`. -/
theorem c3_witness :
    (∀ r ∈ periodRecs (loadRows c3GoodRows) "2014-2015", (r.total).isSome = true) ∧
    periodTotal (loadRows c3GoodRows) "2014-2015" ≠ 0 ∧
    fsum ((periodRecs (loadRows c3GoodRows) "2014-2015").map
      (fun r => shareVal (loadRows c3GoodRows) r)) = FVal.fin 100 := by
  have hall : ∀ r ∈ periodRecs (loadRows c3GoodRows) "2014-2015",
      (r.total).isSome = true := by decide
  have hpt : periodTotal (loadRows c3GoodRows) "2014-2015" = 500 := by
    have h1 : (periodRecs (loadRows c3GoodRows) "2014-2015").filterMap
        (fun r => r.total) = [(300 : ℚ), 200] := by decide
    simp only [periodTotal, h1, List.sum_cons, List.sum_nil]
    norm_num
  have hT : periodTotal (loadRows c3GoodRows) "2014-2015" ≠ 0 := by
    rw [hpt]
    norm_num
  exact ⟨hall, hT, c3_share_closure_amended c3GoodRows "2014-2015" hall hT⟩

/-- The default-carrying last element of a list ending in `[a]` is `a`. -/
theorem getLastD_append_single (l : List (Option ℚ)) (a d : Option ℚ) :
    (l ++ [a]).getLastD d = a := by
  induction l generalizing d with
  | nil => rfl
  | cons x l ih =>
    rw [List.cons_append, List.getLastD_cons]
    exact ih x

/-- Evaluation of the CAGR block on `c5Totals`: eleven rows, first Total
`100`, last Total `941.48`, so ratio `9.4148` over ten steps. -/
theorem cagrBlock_c5Totals_eq :
    cagrBlock c5Totals =
      CagrResult.val ((((23537 / 2500 : ℚ) : ℝ) ^
        ((1 : ℝ) / ((10 : ℕ) : ℝ)) - 1) * 100) := by
  have h1 : cagrBlock c5Totals =
      CagrResult.val (((((23537 / 25 : ℚ) / 100 : ℚ) : ℝ) ^
        ((1 : ℝ) / ((9 + 1 : ℕ) : ℝ)) - 1) * 100) := by
    norm_num [cagrBlock, c5Totals, List.getLastD_cons]
  rw [h1]
  congr 2
  push_cast
  norm_num

/-- Rational bounds on the tenth root of `9.4148`: it lies strictly
between `1.251` and `1.252`, since `1.251 ^ 10 < 9.4148 < 1.252 ^ 10`. -/
theorem c5RpowBounds :
    (1.251 : ℝ) < (23537 / 2500 : ℝ) ^ ((1 : ℝ) / 10) ∧
    (23537 / 2500 : ℝ) ^ ((1 : ℝ) / 10) < 1.252 := by
  have hr : (0 : ℝ) < 23537 / 2500 := by norm_num
  have hy : 0 < (23537 / 2500 : ℝ) ^ ((1 : ℝ) / 10) := Real.rpow_pos_of_pos hr _
  have key : ((23537 / 2500 : ℝ) ^ ((1 : ℝ) / 10)) ^ (10 : ℕ) = 23537 / 2500 := by
    rw [← Real.rpow_natCast ((23537 / 2500 : ℝ) ^ ((1 : ℝ) / 10)) 10,
      ← Real.rpow_mul hr.le]
    norm_num
  constructor
  · apply lt_of_pow_lt_pow_left₀ 10 hy.le
    rw [key]
    norm_num
  · apply lt_of_pow_lt_pow_left₀ 10 (by norm_num : (0 : ℝ) ≤ 1.252)
    rw [key]
    norm_num

/-- C2 (counterexample): a category whose first-period Total is zero does
not make the CAGR block fail — with Totals `[0, 5]` the block returns
`+inf` (no exception is raised), and with a missing first Total it
returns `NaN`. -/
theorem c2_counterexample :
    cagrBlock [some (0 : ℚ), some 5] = CagrResult.pinfV ∧
    (cagrBlock [some (0 : ℚ), some 5]).isError = false ∧
    cagrBlock [none, some (5 : ℚ)] = CagrResult.nanV :=
  ⟨rfl, rfl, rfl⟩

/-- C2 (amended): a category present in a single period makes the CAGR
block raise the division-by-zero error at `1 / years` (so it never
returns `0`); but a zero or missing first-period Total does not raise —
the block then returns a non-finite float (`NaN` or `±inf`) instead of an
explicit error. -/
theorem c2_cagr_undefined_amended :
    (∀ t : Option ℚ, cagrBlock [t] = CagrResult.err PyError.zeroDivisionError) ∧
    (∀ rest : List (Option ℚ), rest ≠ [] →
      (cagrBlock ((none : Option ℚ) :: rest)).isError = false ∧
      (cagrBlock ((none : Option ℚ) :: rest)).isFin = false) ∧
    (∀ rest : List (Option ℚ), rest ≠ [] →
      (cagrBlock (some (0 : ℚ) :: rest)).isError = false ∧
      (cagrBlock (some (0 : ℚ) :: rest)).isFin = false) := by
  refine ⟨fun t => rfl, ?_, ?_⟩
  · intro rest h
    rcases rest with _ | ⟨t1, rest⟩
    · exact absurd rfl h
    · exact ⟨rfl, rfl⟩
  · intro rest h
    rcases rest with _ | ⟨t1, rest⟩
    · exact absurd rfl h
    · rcases hl : (t1 :: rest).getLastD none with _ | l
      · have hb : cagrBlock (some (0 : ℚ) :: t1 :: rest) = CagrResult.nanV := by
          simp only [cagrBlock, hl]
        rw [hb]
        exact ⟨rfl, rfl⟩
      · have hb : cagrBlock (some (0 : ℚ) :: t1 :: rest) =
            (if l = 0 then CagrResult.nanV else if 0 < l then CagrResult.pinfV
             else if rest.length + 1 = 1 then CagrResult.ninfV
             else CagrResult.pinfV) := by
          simp only [cagrBlock, hl, eq_self_iff_true, if_true]
        rw [hb]
        split_ifs <;> exact ⟨rfl, rfl⟩

/-- C2 (witness): the amended behavior at the two-period Total lists
`[none, some 5]` and `[some 0, some 5]`. -/
theorem c2_witness :
    (([some (5 : ℚ)] : List (Option ℚ)) ≠ []) ∧
    ((cagrBlock ((none : Option ℚ) :: [some (5 : ℚ)])).isError = false ∧
      (cagrBlock ((none : Option ℚ) :: [some (5 : ℚ)])).isFin = false) ∧
    ((cagrBlock (some (0 : ℚ) :: [some (5 : ℚ)])).isError = false ∧
      (cagrBlock (some (0 : ℚ) :: [some (5 : ℚ)])).isFin = false) :=
  ⟨by decide, c2_cagr_undefined_amended.2.1 [some 5] (by decide),
    c2_cagr_undefined_amended.2.2 [some 5] (by decide)⟩

/-- C5 (counterexample): on first Total `100` and last Total `941.48`
over ten ordinal steps the CAGR is about `25.14`, which is not within
`0.1` of `25.0` — the tenth root of `9.4148` exceeds `1.251`. -/
theorem c5_counterexample :
    ¬ ∃ x : ℝ, cagrBlock c5Totals = CagrResult.val x ∧ |x - 25| ≤ 1 / 10 := by
  rintro ⟨x, hx, hb⟩
  rw [cagrBlock_c5Totals_eq] at hx
  have hxval : (((23537 / 2500 : ℚ) : ℝ) ^ ((1 : ℝ) / ((10 : ℕ) : ℝ)) - 1) * 100 = x := by
    injection hx
  have hc : ((23537 / 2500 : ℚ) : ℝ) = (23537 / 2500 : ℝ) := by norm_num
  have hn : (((10 : ℕ)) : ℝ) = (10 : ℝ) := by norm_num
  rw [hc, hn] at hxval
  obtain ⟨h1, -⟩ := c5RpowBounds
  have hgt : 25 + 1 / 10 < x := by nlinarith
  have hle : x - 25 ≤ 1 / 10 := le_of_abs_le hb
  linarith

/-- C5 (amended): for a category whose first-period Total is present and
non-zero and whose last-to-first ratio is nonnegative, spanning `n ≥ 1`
ordinal steps, the CAGR block computes
`((Total(last) / Total(first)) ^ (1 / n) - 1) * 100`; on first Total
`100`, last Total `941.48` and ten steps, the value is within `0.1` of
`25.1` (not of `25.0`). -/
theorem c5_cagr_amended :
    (∀ (mid : List (Option ℚ)) (f l : ℚ), f ≠ 0 → 0 ≤ l / f →
      cagrBlock (some f :: (mid ++ [some l])) =
        CagrResult.val ((((l / f : ℚ) : ℝ) ^
          ((1 : ℝ) / ((mid.length + 1 : ℕ) : ℝ)) - 1) * 100)) ∧
    cagrBlock c5Totals =
      CagrResult.val ((((23537 / 2500 : ℚ) : ℝ) ^
        ((1 : ℝ) / ((10 : ℕ) : ℝ)) - 1) * 100) ∧
    |(((23537 / 2500 : ℚ) : ℝ) ^ ((1 : ℝ) / ((10 : ℕ) : ℝ)) - 1) * 100 - 251 / 10|
      < 1 / 10 := by
  refine ⟨?_, cagrBlock_c5Totals_eq, ?_⟩
  · intro mid f l hf hr
    have hnot : ∀ n : ℕ, ¬(l / f < 0 ∧ n ≠ 1) :=
      fun n hcon => absurd hcon.1 (not_lt.mpr hr)
    rcases mid with _ | ⟨m0, mid⟩
    · have hlast : ([some l] : List (Option ℚ)).getLastD none = some l := rfl
      simp only [List.nil_append, cagrBlock, hlast]
      rw [if_neg hf, if_neg (hnot _)]
    · have hlast : (m0 :: (mid ++ [some l])).getLastD none = some l := by
        rw [List.getLastD_cons]
        exact getLastD_append_single mid (some l) m0
      simp only [List.cons_append, cagrBlock, hlast]
      rw [if_neg hf, if_neg (hnot _)]
      congr 3
      simp [List.length_append]
  · have hc : ((23537 / 2500 : ℚ) : ℝ) = (23537 / 2500 : ℝ) := by norm_num
    have hn : (((10 : ℕ)) : ℝ) = (10 : ℝ) := by norm_num
    rw [hc, hn, abs_lt]
    obtain ⟨h1, h2⟩ := c5RpowBounds
    constructor <;> nlinarith

/-- C5 (witness): the amended formula at the concrete Total list
`[some 2, some 1, some 8]` (first `2`, last `8`, two ordinal steps). -/
theorem c5_witness :
    ((2 : ℚ) ≠ 0) ∧ (0 ≤ (8 : ℚ) / 2) ∧
    cagrBlock (some (2 : ℚ) :: ([some 1] ++ [some 8])) =
      CagrResult.val (((((8 : ℚ) / 2 : ℚ) : ℝ) ^
        ((1 : ℝ) / ((([some (1 : ℚ)].length + 1 : ℕ)) : ℝ)) - 1) * 100) :=
  ⟨by norm_num, by norm_num,
    c5_cagr_amended.1 [some 1] 2 8 (by norm_num) (by norm_num)⟩
